import Mathlib

/-!
Verification of the DACTE OS renderer (brazilfiscalreport/dacte/dacteos.py).

The Python module parses a CT-e OS XML document with xml.etree.ElementTree,
extracts scalar fields, and issues PDF draw calls.  This file gives a shallow
embedding of the extraction and of the render-time computations that can fail
or that produce the displayed strings: the constructor is modelled as a
function from an XML element tree to Except (Python exceptions become error
results), and the drawn artefacts (formatted access key, document rows,
watermark decision) are fields of the resulting state.

Helpers imported from modules that are not part of this repository snapshot
(brazilfiscalreport.utils.get_tag_text, brazilfiscalreport.utils.format_number,
the DacteConfig defaults, datetime parsing and formatting) are modelled from
the specification; each such definition carries a comment saying so.
-/

/-- An xml.etree.ElementTree element: tag, attributes, text, child elements. -/
inductive Element where
  | mk (tag : String) (attrib : List (String × String)) (text : Option String)
       (children : List Element)

def Element.tag : Element → String
  | .mk t _ _ _ => t

def Element.attrib : Element → List (String × String)
  | .mk _ a _ _ => a

def Element.text : Element → Option String
  | .mk _ _ tx _ => tx

def Element.children : Element → List Element
  | .mk _ _ _ cs => cs

/-- The CT-e namespace constant URL from dacte_conf, in the universal-name
form used by every lookup in dacteos.py. -/
def nsURL : String := "\x7bhttp://www.portalfiscal.inf.br/cte\x7d"

/-- element.find with a single-level path: first direct child with the tag. -/
def find1 (e : Element) (t : String) : Option Element :=
  e.children.find? (fun c => c.tag == t)

/-- element.findall with a single-level path: all direct children with the tag. -/
def findall1 (e : Element) (t : String) : List Element :=
  e.children.filter (fun c => c.tag == t)

/-- element.find with a two-level path such as ICMS/ICMSOutraUF: the first
grandchild in document order reached through a child with the first tag. -/
def find2 (e : Element) (t1 t2 : String) : Option Element :=
  (findall1 e t1).findSome? (fun c => find1 c t2)

/-- Python bool(element) for ElementTree: None is falsy, and an element is
truthy exactly when it has at least one child element. -/
def pyBool (e : Option Element) : Bool :=
  match e with
  | none => false
  | some el => !el.children.isEmpty

/-- Python str.strip restricted to the ascii whitespace the documents can
contain. -/
def pyStrip (s : String) : String :=
  String.mk
    (((s.data.dropWhile Char.isWhitespace).reverse.dropWhile Char.isWhitespace).reverse)

/-- One pass of non-overlapping left-to-right replacement, the semantics of
Python str.replace for a non-empty pattern; the fuel is the input length,
always sufficient because every step consumes at least one character. -/
def pyReplaceAux (pat repl : List Char) : Nat → List Char → List Char
  | 0, l => l
  | _, [] => []
  | fuel + 1, l@(c :: rest) =>
    if pat.isPrefixOf l then repl ++ pyReplaceAux pat repl fuel (l.drop pat.length)
    else c :: pyReplaceAux pat repl fuel rest

/-- Python str.replace for the non-empty patterns this program uses. -/
def pyReplace (s pat repl : String) : String :=
  if pat.data = [] then s
  else String.mk (pyReplaceAux pat.data repl.data s.data.length s.data)

/-- xpath.split(chr 58)[-1]: the part of the tag name after the last colon. -/
def tagAfterColon (xpath : String) : String :=
  String.mk ((xpath.data.reverse.takeWhile (fun c => c ≠ ':')).reverse)

/-- The tag that element.find(xpath, namespace) looks for, with the namespace
map used by find_text: a name with the cte prefix resolves to the namespace
URL, a bare name is looked up literally. -/
def resolveXPath (xpath : String) : String :=
  if xpath.data.contains ':' then nsURL ++ tagAfterColon xpath else xpath

/-- Modelled from the spec: brazilfiscalreport.utils.get_tag_text is not part
of this repository snapshot.  Per the spec it is the helper lookup used as the
fallback of find_text, pairing the namespace URL with the bare tag name: it
returns the raw text of the direct child named url ++ tag, and nothing when
that child or its text is absent. -/
def get_tag_text (node : Element) (url : String) (tag : String) : Option String :=
  (find1 node (url ++ tag)).bind Element.text

/-- The fallback branch of find_text (lines 53-58): strip the prefix off the
xpath, query get_tag_text, and return the stripped text when it is truthy. -/
def fallbackText (el : Element) (xpath : String) : String :=
  match get_tag_text el nsURL (tagAfterColon xpath) with
  | some t => if t ≠ "" then pyStrip t else ""
  | none => ""

/-- find_text (dacteos.py lines 43-58): empty string for a missing element,
the trimmed text of the primary match when its text is present, otherwise the
fallback lookup. -/
def find_text (element : Option Element) (xpath : String) : String :=
  match element with
  | none => ""
  | some el =>
    match find1 el (resolveXPath xpath) with
    | some f =>
      match f.text with
      | some t => pyStrip t
      | none => fallbackText el xpath
    | none => fallbackText el xpath

/-- element.attrib.get(key, default). -/
def attribGet (e : Element) (k dflt : String) : String :=
  match e.attrib.find? (fun p => p.fst == k) with
  | some p => p.snd
  | none => dflt

/-- Python or on strings: the first operand when it is truthy (non-empty). -/
def pyOrStr (a b : String) : String := if a ≠ "" then a else b

def isDigitChar (c : Char) : Bool := c.isDigit

def charVal (c : Char) : Nat := c.toNat - 48

def toDigitChar (d : Nat) : Char := Char.ofNat (48 + d)

def twoDig (a b : Char) : Nat := 10 * charVal a + charVal b

/-- Models Python int() on the nonnegative all-digit decimal strings this
program feeds it (document key slices); any other string is a ValueError. -/
def pyIntDigits? (s : String) : Option Nat :=
  if s.data ≠ [] ∧ s.data.all isDigitChar then
    some (Nat.ofDigits 10 ((s.data.map charVal).reverse))
  else none

/-- Little-endian decimal digits, with fuel for termination; any fuel at
least the digit count (in particular the number itself) is enough. -/
def decimalDigitsLE : Nat → Nat → List Nat
  | 0, _ => []
  | fuel + 1, n => if n = 0 then [] else n % 10 :: decimalDigitsLE fuel (n / 10)

/-- The big-endian decimal digit list of a natural number. -/
def decimalDigitsBE (n : Nat) : List Nat :=
  if n = 0 then [0] else (decimalDigitsLE n n).reverse

structure PyDateTime where
  year : Nat
  month : Nat
  day : Nat
  hour : Nat
  minute : Nat
  second : Nat
deriving DecidableEq

def isLeapYear (y : Nat) : Bool :=
  (y % 4 == 0 && y % 100 != 0) || y % 400 == 0

def daysInMonth (y m : Nat) : Nat :=
  if m = 2 then (if isLeapYear y then 29 else 28)
  else if m = 4 ∨ m = 6 ∨ m = 9 ∨ m = 11 then 30
  else 31

/-- Trailing fractional-second and utc-offset checks of an ISO time. -/
def isoTimeTail (l : List Char) : Bool :=
  match l with
  | [] => true
  | s :: r =>
    if s = '+' ∨ s = '-' then
      match r with
      | [h1, h2, ':', m1, m2] =>
        [h1, h2, m1, m2].all isDigitChar && twoDig h1 h2 < 24 && twoDig m1 m2 < 60
      | _ => false
    else if s = '.' then
      let ds := r.takeWhile isDigitChar
      let rest := r.drop ds.length
      decide (1 ≤ ds.length ∧ ds.length ≤ 6) &&
        (match rest with
         | [] => true
         | s2 :: r2 =>
           (s2 = '+' || s2 = '-') &&
             (match r2 with
              | [h1, h2, ':', m1, m2] =>
                [h1, h2, m1, m2].all isDigitChar && twoDig h1 h2 < 24 && twoDig m1 m2 < 60
              | _ => false))
    else false

/-- The HH:MM:SS part of an ISO timestamp together with its optional tail. -/
def parseHMS (l : List Char) : Option (Nat × Nat × Nat) :=
  match l with
  | h1 :: h2 :: ':' :: m1 :: m2 :: ':' :: s1 :: s2 :: rest =>
    if [h1, h2, m1, m2, s1, s2].all isDigitChar ∧ twoDig h1 h2 < 24 ∧
        twoDig m1 m2 < 60 ∧ twoDig s1 s2 < 60 ∧ isoTimeTail rest = true then
      some (twoDig h1 h2, twoDig m1 m2, twoDig s1 s2)
    else none
  | _ => none

/-- Models datetime.fromisoformat on the timestamp shapes CT-e documents use:
a YYYY-MM-DD date, optionally followed by a one-character separator and a
HH:MM:SS time with optional fractional seconds and utc offset.  Anything
else, in particular the empty string, is a ValueError. -/
def fromisoformat (s : String) : Option PyDateTime :=
  match s.data with
  | y1 :: y2 :: y3 :: y4 :: '-' :: mo1 :: mo2 :: '-' :: d1 :: d2 :: rest =>
    if [y1, y2, y3, y4, mo1, mo2, d1, d2].all isDigitChar then
      let y := 1000 * charVal y1 + 100 * charVal y2 + 10 * charVal y3 + charVal y4
      let mo := twoDig mo1 mo2
      let d := twoDig d1 d2
      if 1 ≤ mo ∧ mo ≤ 12 ∧ 1 ≤ d ∧ d ≤ daysInMonth y mo then
        match rest with
        | [] => some ⟨y, mo, d, 0, 0, 0⟩
        | _sep :: t =>
          match parseHMS t with
          | some (h, mi, se) => some ⟨y, mo, d, h, mi, se⟩
          | none => none
      else none
    else none
  | _ => none

/-- Two-digit zero-padded decimal rendering of a field below 100. -/
def pad2 (n : Nat) : String :=
  String.mk [toDigitChar (n / 10 % 10), toDigitChar (n % 10)]

/-- Four-digit zero-padded decimal rendering of a year below 10000. -/
def pad4 (n : Nat) : String :=
  String.mk [toDigitChar (n / 1000 % 10), toDigitChar (n / 100 % 10),
             toDigitChar (n / 10 % 10), toDigitChar (n % 10)]

/-- strftime with the format DD/MM/YYYY HH:MM:SS. -/
def strftimeDMYHMS (dt : PyDateTime) : String :=
  pad2 dt.day ++ "/" ++ pad2 dt.month ++ "/" ++ pad4 dt.year ++ " " ++
    pad2 dt.hour ++ ":" ++ pad2 dt.minute ++ ":" ++ pad2 dt.second

/-- Fuelled chunking: the slices s[i : i+k] for i in range(0, len(s), k).
The fuel argument only serves termination; the list length is always enough
fuel for the step sizes 3 and 4 used here. -/
def chunkListAux (k : Nat) : Nat → List α → List (List α)
  | 0, _ => []
  | _, [] => []
  | fuel + 1, l@(_ :: _) => l.take k :: chunkListAux k fuel (l.drop k)

def chunkList (k : Nat) (l : List α) : List (List α) :=
  chunkListAux k l.length l

/-- Groups of three taken from the right end, as thousands grouping does. -/
def rchunks3 (l : List α) : List (List α) :=
  ((chunkList 3 l.reverse).map List.reverse).reverse

/-- The f-string format spec 011-with-commas applied to a natural number, at
character level: decimal digits, zero-padded so that digits plus separators
reach width 11 (for at most nine digits this pads the digits to nine),
grouped in threes by commas. -/
def pyFormatComma011 (n : Nat) : List Char :=
  let ds := (decimalDigitsBE n).map toDigitChar
  let padded := if ds.length ≤ 9 then List.replicate (9 - ds.length) '0' ++ ds else ds
  List.intercalate [','] (rchunks3 padded)

/-- Line 665: the formatted document number, the comma-grouped rendering with
every comma replaced by a dot (a one-character str.replace is a character
map). -/
def formattedNroDoc (n : Nat) : String :=
  String.mk ((pyFormatComma011 n).map (fun c => if c = ',' then '.' else c))

/-- Python slicing s[a : b] for a ≤ b. -/
def pySlice (s : String) (a b : Nat) : String :=
  String.mk ((s.data.drop a).take (b - a))

/-- Line 408: the access key displayed as its four-character slices joined by
single spaces. -/
def formatKeyDisplay (key : String) : String :=
  String.intercalate " " ((chunkList 4 key.data).map String.mk)

/-- str.split on a one-character separator. -/
def splitOnChar (sep : Char) (l : List Char) : List (List Char) :=
  l.foldr
    (fun c acc =>
      match acc with
      | [] => if c = sep then [[], []] else [[c]]
      | a :: rest => if c = sep then [] :: a :: rest else (c :: a) :: rest)
    [[]]

/-- Decomposition of a decimal string into integer and fractional digit
lists; fails on anything float() would reject among the nonnegative decimal
strings this program produces. -/
def parseDecimalParts (s : String) : Option (List Char × List Char) :=
  match splitOnChar '.' s.data with
  | [i] => if i ≠ [] ∧ i.all isDigitChar then some (i, []) else none
  | [i, f] =>
    if (i ++ f) ≠ [] ∧ i.all isDigitChar ∧ f.all isDigitChar then
      some (i, f)
    else none
  | _ => none

/-- Models float() succeeding, for the nonnegative decimal strings reaching
the render-time conversions on lines 564 and 570. -/
def floatParses (s : String) : Bool :=
  (parseDecimalParts s).isSome

/-- Modelled from the spec: brazilfiscalreport.utils.format_number is not
part of this repository snapshot.  Per the spec it is a pure numeric
formatter with a fixed number of decimal places per domain, producing the
Brazilian convention (thousands dot, decimal comma) its consumers undo with
a comma-to-dot replace; on input it cannot parse it falls back to returning
the raw string unchanged, mirroring the garbage-in-garbage-out stance the
spec assigns the formatters.  Fractional digits beyond the precision are
truncated; the documents under test carry exactly the configured precision. -/
def formatNumber (value : String) (precision : Nat) : String :=
  match parseDecimalParts value with
  | none => value
  | some (ip, fp) =>
    let fracP := (fp ++ List.replicate precision '0').take precision
    let ip' := match ip.dropWhile (fun c => c = '0') with
      | [] => ['0']
      | l => l
    let intStr := String.mk (List.intercalate ['.'] (rchunks3 ip'))
    if precision = 0 then intStr else intStr ++ "," ++ String.mk fracP

structure IcmsFields where
  cst : String
  vbc : String
  pIcms : String
  vIcms : String
  predBc : String
  st : String
deriving DecidableEq

/-- The all-default tax field set of lines 186-191. -/
def icmsDefaults : IcmsFields :=
  { cst := "", vbc := "0.00", pIcms := "0.00", vIcms := "0.00",
    predBc := "0.00", st := "0.00" }

/-- The interstate field set of lines 166-175. -/
def icmsOutraUFFields (n : Element) (prec : Nat) : IcmsFields :=
  { cst := find_text (some n) "CST"
    vbc := formatNumber (find_text (some n) "vBCOutraUF") prec
    pIcms := formatNumber
      (pyOrStr (find_text (some n) "pFCPUFFim") (find_text (some n) "pICMSOutraUF")) prec
    vIcms := formatNumber
      (pyOrStr (find_text (some n) "vFCPUFFim") (find_text (some n) "vICMSOutraUF")) prec
    predBc := "0.00"
    st := "0.00" }

/-- The standard field set of lines 179-184. -/
def icms00Fields (n : Element) (prec : Nat) : IcmsFields :=
  { cst := find_text (some n) "CST"
    vbc := formatNumber (find_text (some n) "vBC") prec
    pIcms := formatNumber (find_text (some n) "pICMS") prec
    vIcms := formatNumber (find_text (some n) "vICMS") prec
    predBc := formatNumber (find_text (some n) "pRedBC") prec
    st := formatNumber (find_text (some n) "vICMSST") prec }

/-- Lines 164-191: the interstate node is tested with is-not-None, the
standard node with Python element truthiness (the bare if on line 178), and
otherwise every field defaults. -/
def computeIcms (imp : Element) (prec : Nat) : IcmsFields :=
  match find2 imp (nsURL ++ "ICMS") (nsURL ++ "ICMSOutraUF") with
  | some n => icmsOutraUFFields n prec
  | none =>
    match find2 imp (nsURL ++ "ICMS") (nsURL ++ "ICMS00") with
    | some n => if n.children.isEmpty then icmsDefaults else icms00Fields n prec
    | none => icmsDefaults

/-- The selection rule as the claim states it: each variant is chosen by node
presence alone. -/
def claimIcmsSelect (imp : Element) (prec : Nat) : IcmsFields :=
  match find2 imp (nsURL ++ "ICMS") (nsURL ++ "ICMSOutraUF") with
  | some n => icmsOutraUFFields n prec
  | none =>
    match find2 imp (nsURL ++ "ICMS") (nsURL ++ "ICMS00") with
    | some n => icms00Fields n prec
    | none => icmsDefaults

/-- The conditional append of lines 218-219 and 221-222. -/
def appendChave (acc : List String) (n : Element) : List String :=
  let c := find_text (some n) "chave"
  if c ≠ "" then acc ++ [c] else acc

/-- Lines 215-222: the referenced-document list, one findall pass over the
invoice references followed by one over the transport-document references. -/
def buildDocList (infDoc : Option Element) : List String :=
  match infDoc with
  | none => []
  | some d =>
    (findall1 d (nsURL ++ "infCTe")).foldl appendChave
      ((findall1 d (nsURL ++ "infNFe")).foldl appendChave [])

/-- The referenced-document list as the claim states it: the chave of every
reference node of either kind, in document order over the infDoc subtree. -/
def claimDocList (infDoc : Option Element) : List String :=
  match infDoc with
  | none => []
  | some d =>
    (d.children.filter
        (fun c => c.tag == nsURL ++ "infNFe" || c.tag == nsURL ++ "infCTe")).map
      (fun n => find_text (some n) "chave")

/-- Lines 436-444: the usage protocol string; with no infProt node the
literal N/A, otherwise protocol number dash reformatted receipt timestamp,
where the timestamp reformatting has no fallback for a parse failure. -/
def getUsageProtocol (infProt : Option Element) : Except String String :=
  match infProt with
  | none => .ok "N/A"
  | some ip =>
    match fromisoformat (find_text (some ip) "dhRecbto") with
    | none => .error "ValueError: fromisoformat dhRecbto"
    | some dt => .ok (find_text (some ip) "nProt" ++ "-" ++ strftimeDMYHMS dt)

/-- Lines 122-127: the emission timestamp, reformatted when it parses and
kept verbatim otherwise. -/
def dhEmiFormat (ide : Option Element) : String :=
  let raw := find_text ide "dhEmi"
  match fromisoformat raw with
  | some dt => strftimeDMYHMS dt
  | none => raw

/-- Lines 226-227: the xObs observation; a text-less xObs node is an
AttributeError on the strip call. -/
def obsFromXObs (c : Element) : Except String (List String) :=
  match find1 c (nsURL ++ "xObs") with
  | none => .ok []
  | some x =>
    match x.text with
    | none => .error "AttributeError: NoneType strip xObs"
    | some t => .ok [pyStrip t]

/-- Lines 224-231: the observation list built from the complement subtree. -/
def buildObs (compl : Option Element) : Except String (List String) :=
  match compl with
  | none => .ok []
  | some c => do
    let first ← obsFromXObs c
    (findall1 c (nsURL ++ "ObsCont")).foldlM (fun acc oc =>
      match find1 oc (nsURL ++ "xTexto") with
      | none => pure acc
      | some x =>
        match x.text with
        | none => Except.error "AttributeError: NoneType strip xTexto"
        | some t => pure (acc ++ [pyStrip t])) first

/-- Lines 233-243: road-modal fields.  The registration number degrades to
empty strings when rodoOS is absent; when rodoOS is present but veic is not,
the plate and state attributes are simply never assigned, which the later
draw call on line 700 turns into an AttributeError (modelled as none). -/
def rodoFields (infModal : Element) : String × Option String × Option String :=
  match find1 infModal (nsURL ++ "rodoOS") with
  | none => ("", some "", some "")
  | some r =>
    let nro := find_text (some r) "NroRegEstadual"
    match find1 r (nsURL ++ "veic") with
    | none => (nro, none, none)
    | some v => (nro, some (find_text (some v) "placa"), some (find_text (some v) "UF"))

structure DocRow where
  tipo : String
  chave : String
  serie : String
  nroFmt : String
deriving DecidableEq

/-- Lines 653-667: one row of the originating-documents table.  The type
label is the literal NFE, the series and number are fixed-offset slices of
the key, and the number goes through int() and the comma format. -/
def renderRow (chave : String) : Except String DocRow :=
  let serie := pySlice chave 22 25
  match pyIntDigits? (pySlice chave 25 34) with
  | none => .error "ValueError: int nro_doc"
  | some n => .ok { tipo := "NFE", chave := chave, serie := serie, nroFmt := formattedNroDoc n }

/-- The row loop of lines 653-667: rows are produced in order and the first
int conversion failure aborts with a ValueError. -/
def renderRows : List String → Except String (List DocRow)
  | [] => .ok []
  | c :: rest =>
    match renderRow c with
    | .error e => .error e
    | .ok r =>
      match renderRows rest with
      | .error e => .error e
      | .ok rs => .ok (r :: rs)

/-- The displayed sequence number as the claim states it: the nine-character
substring, zero-padded to the eleven display characters by thousands
grouping with dots. -/
def specNroFmt (s : String) : String :=
  String.mk (List.intercalate ['.'] (rchunks3 s.data))

/-- The element bindings of lines 83-102.  The four match arms that end in an
error are exactly the four attribute accesses performed on a possibly-None
find result: lines 87, 88, 96 and 102; every other binding tolerates
absence. -/
structure NodesA where
  cteOs : Element
  infCte : Element
  ide : Option Element
  emit : Option Element
  toma : Option Element
  vPrest : Option Element
  imp : Option Element
  infCteNorm : Element
  infCarga : Option Element
  infDoc : Option Element
  infModal : Option Element
  compl : Option Element
  infCteSupl : Option Element
  protCte : Element
  infProt : Option Element

def getNodes1 (root : Element) : Except String NodesA :=
  match find1 root (nsURL ++ "CTeOS") with
  | none => .error "AttributeError: cte_os_node"
  | some cteOs =>
    match find1 cteOs (nsURL ++ "infCte") with
    | none => .error "AttributeError: inf_cte"
    | some infCte =>
      match find1 infCte (nsURL ++ "infCTeNorm") with
      | none => .error "AttributeError: inf_cte_norm"
      | some norm =>
        match find1 root (nsURL ++ "protCTe") with
        | none => .error "AttributeError: prot_cte_node"
        | some protCte =>
          .ok { cteOs := cteOs, infCte := infCte
                ide := find1 infCte (nsURL ++ "ide")
                emit := find1 infCte (nsURL ++ "emit")
                toma := find1 infCte (nsURL ++ "toma")
                vPrest := find1 infCte (nsURL ++ "vPrest")
                imp := find1 infCte (nsURL ++ "imp")
                infCteNorm := norm
                infCarga := find1 norm (nsURL ++ "infCarga")
                infDoc := find1 norm (nsURL ++ "infDoc")
                infModal := find1 norm (nsURL ++ "infModal")
                compl := find1 infCte (nsURL ++ "compl")
                infCteSupl := find1 infCte (nsURL ++ "infCTeSupl")
                protCte := protCte
                infProt := find1 protCte (nsURL ++ "infProt") }

/-- The state of a fully constructed DacteOS object, restricted to the
fields the verified claims speak about. -/
structure DState where
  ide : Option Element
  infProt : Option Element
  keyCte : String
  protUso : String
  dhEmi : String
  icms : IcmsFields
  infDocList : List String
  qrCodeData : String
  formattedKey : String
  docRows : List DocRow
  watermark : Bool

/-- DacteOS construction: the extraction of lines 83-246 followed by the
draw sequence of lines 249-262, modelled to the failure points and to the
displayed artefacts.  Failure points appear in source execution order:
the four structural lookups (getNodes1), the usage protocol (line 120, a
receipt timestamp that does not parse), the tomador address lookups (line
145), the tax block access (line 164), the observation strips (lines
227-230), the modal access (line 233), the emitter address lookups in the
header drawing (line 344), the two float conversions of the totals (lines
564 and 570), the per-row int conversion of the document numbers (line 665)
and the vehicle-plate attribute read (line 700).  The watermark decision of
lines 762-766 runs last. -/
def construct (root : Element) : Except String DState :=
  match getNodes1 root with
  | .error e => .error e
  | .ok nd =>
    let keyCte := pyReplace (attribGet nd.infCte "Id" "") "CTe" ""
    match getUsageProtocol nd.infProt with
    | .error e => .error e
    | .ok protUso =>
      let dhEmi := dhEmiFormat nd.ide
      match nd.toma with
      | none => .error "AttributeError: toma_node"
      | some _ =>
        let vT := formatNumber (find_text nd.vPrest "vTPrest") 2
        let vR := formatNumber (find_text nd.vPrest "vRec") 2
        match nd.imp with
        | none => .error "AttributeError: imp"
        | some imp =>
          let icms := computeIcms imp 2
          let docList := buildDocList nd.infDoc
          match buildObs nd.compl with
          | .error e => .error e
          | .ok _obs =>
            match nd.infModal with
            | none => .error "AttributeError: inf_modal"
            | some infModal =>
              let rodo := rodoFields infModal
              let qr := find_text nd.infCteSupl "qrCodCTe"
              match nd.emit with
              | none => .error "AttributeError: emit"
              | some _ =>
                let fk := formatKeyDisplay keyCte
                if floatParses (pyReplace vT "," ".") = false then
                  .error "ValueError: float vTPrest"
                else if floatParses (pyReplace vR "," ".") = false then
                  .error "ValueError: float vRec"
                else
                  match renderRows docList with
                  | .error e => .error e
                  | .ok rows =>
                    match rodo.2.1 with
                    | none => .error "AttributeError: placa_veiculo"
                    | some _ =>
                      .ok { ide := nd.ide, infProt := nd.infProt
                            keyCte := keyCte, protUso := protUso, dhEmi := dhEmi
                            icms := icms, infDocList := docList, qrCodeData := qr
                            formattedKey := fk, docRows := rows
                            watermark :=
                              !(find_text nd.ide "tpAmb" == "1" && pyBool nd.infProt) }

def constructOk (root : Element) : Bool :=
  match construct root with
  | .ok _ => true
  | .error _ => false

def watermarkOf (root : Element) : Option Bool :=
  match construct root with
  | .ok st => some st.watermark
  | .error _ => none

def docRowsOf (root : Element) : Option (List DocRow) :=
  match construct root with
  | .ok st => some st.docRows
  | .error _ => none

def infDocListOf (root : Element) : Option (List String) :=
  match construct root with
  | .ok st => some st.infDocList
  | .error _ => none

def keyCteOf (root : Element) : Option String :=
  match construct root with
  | .ok st => some st.keyCte
  | .error _ => none

def formattedKeyOf (root : Element) : Option String :=
  match construct root with
  | .ok st => some st.formattedKey
  | .error _ => none

def protUsoOf (root : Element) : Option String :=
  match construct root with
  | .ok st => some st.protUso
  | .error _ => none

def dhEmiOf (root : Element) : Option String :=
  match construct root with
  | .ok st => some st.dhEmi
  | .error _ => none

def icmsOf (root : Element) : Option IcmsFields :=
  match construct root with
  | .ok st => some st.icms
  | .error _ => none

def qrCodeDataOf (root : Element) : Option String :=
  match construct root with
  | .ok st => some st.qrCodeData
  | .error _ => none

def infProtOf (root : Element) : Option (Option Element) :=
  match construct root with
  | .ok st => some st.infProt
  | .error _ => none

/-- The protCTe slash infProt node reached by pure tree navigation, the same
path the constructor binds on lines 85 and 102. -/
def protNodeOf (root : Element) : Option Element :=
  (find1 root (nsURL ++ "protCTe")).bind (fun p => find1 p (nsURL ++ "infProt"))

/-- The infCte node reached by pure tree navigation. -/
def infCteNodeOf (root : Element) : Option Element :=
  (find1 root (nsURL ++ "CTeOS")).bind (fun c => find1 c (nsURL ++ "infCte"))

/-- The ide node reached by pure tree navigation. -/
def ideNodeOf (root : Element) : Option Element :=
  (infCteNodeOf root).bind (fun i => find1 i (nsURL ++ "ide"))

/-- The infDoc node reached by pure tree navigation. -/
def infDocNodeOf (root : Element) : Option Element :=
  ((infCteNodeOf root).bind (fun i => find1 i (nsURL ++ "infCTeNorm"))).bind
    (fun n => find1 n (nsURL ++ "infDoc"))

/-- Whether construction succeeds with the protocol node present. -/
def protPresentOf (root : Element) : Option Bool :=
  match construct root with
  | .ok st => some st.infProt.isSome
  | .error _ => none

/-- The raw emission timestamp by pure tree navigation. -/
def rawDhEmiOf (root : Element) : String :=
  find_text (ideNodeOf root) "dhEmi"

/-- The raw environment flag by pure tree navigation. -/
def tpAmbOf (root : Element) : String :=
  find_text (ideNodeOf root) "tpAmb"

/-- A namespaced leaf element with text. -/
def leafE (tag text : String) : Element :=
  Element.mk (nsURL ++ tag) [] (some text) []

/-- A namespaced interior element. -/
def nodeE (tag : String) (cs : List Element) : Element :=
  Element.mk (nsURL ++ tag) [] none cs

/-- A 44-digit access key used by the concrete documents. -/
def exKey44 : String := "35230712345678000195570010000001231000001234"

def exKeyOnes : String := "11111111111111111111111111111111111111111111"

def exKeyTwos : String := "22222222222222222222222222222222222222222222"

def exIde (tpAmb dhEmi : String) : Element :=
  nodeE "ide" [leafE "nCT" "123", leafE "serie" "1", leafE "tpAmb" tpAmb,
               leafE "dhEmi" dhEmi, leafE "tpImp" "1"]

def exInfProt (dhRecbto : String) : Element :=
  nodeE "infProt" [leafE "nProt" "135230000000001", leafE "dhRecbto" dhRecbto]

def exIcms00Node : Element :=
  nodeE "ICMS00"
    [leafE "CST" "00", leafE "vBC" "57.00", leafE "pICMS" "12.00",
     leafE "vICMS" "6.84", leafE "pRedBC" "0.00", leafE "vICMSST" "0.00"]

def exImp : Element :=
  nodeE "imp" [nodeE "ICMS" [exIcms00Node]]

/-- A tax block whose ICMS00 variant node is present but childless. -/
def exImpChildless00 : Element :=
  nodeE "imp" [nodeE "ICMS" [nodeE "ICMS00" []]]

def exVPrest : Element :=
  nodeE "vPrest" [leafE "vTPrest" "57.00", leafE "vRec" "57.00"]

def exNFeRef (k : String) : Element := nodeE "infNFe" [leafE "chave" k]

def exCTeRef (k : String) : Element := nodeE "infCTe" [leafE "chave" k]

def exInfDoc (refs : List Element) : Element := nodeE "infDoc" refs

def exInfCarga : Element := nodeE "infCarga" []

def exInfModal : Element :=
  nodeE "infModal" [nodeE "rodoOS"
    [leafE "NroRegEstadual" "12345",
     nodeE "veic" [leafE "placa" "ABC1234", leafE "UF" "SP"]]]

def exCompl : Element := nodeE "compl" [leafE "xObs" "OBS"]

def exSupl : Element := nodeE "infCTeSupl" [leafE "qrCodCTe" "qrdata"]

def exEmit : Element := nodeE "emit" []

def exToma : Element := nodeE "toma" []

/-- Document builder covering the presence combinations the claims need. -/
def mkDoc (imp : Option Element) (normChildren : List Element)
    (withSupl withCompl : Bool) (protCteChildren : List Element)
    (dhEmi tpAmb : String) : Element :=
  Element.mk "cteOSProc" [] none
    [Element.mk (nsURL ++ "CTeOS") [] none
      [Element.mk (nsURL ++ "infCte") [("Id", "CTe" ++ exKey44)] none
        ([exIde tpAmb dhEmi, exEmit, exToma, exVPrest] ++
         (match imp with | some i => [i] | none => []) ++
         [nodeE "infCTeNorm" normChildren] ++
         (if withCompl then [exCompl] else []) ++
         (if withSupl then [exSupl] else []))],
     Element.mk (nsURL ++ "protCTe") [] none protCteChildren]

def baseNorm : List Element := [exInfCarga, exInfDoc [exNFeRef exKey44], exInfModal]

def goodProt : List Element := [exInfProt "2023-07-10T09:31:00-03:00"]

def goodEmi : String := "2023-07-10T09:30:00-03:00"

/-- A complete well-formed production document. -/
def exBase : Element := mkDoc (some exImp) baseNorm true true goodProt goodEmi "1"

/-- The base document with the tax block removed. -/
def exNoImp : Element := mkDoc none baseNorm true true goodProt goodEmi "1"

/-- The base document with the modal block removed. -/
def exNoModal : Element :=
  mkDoc (some exImp) [exInfCarga, exInfDoc [exNFeRef exKey44]] true true goodProt goodEmi "1"

/-- The base document with the supplementary info removed. -/
def exNoSupl : Element := mkDoc (some exImp) baseNorm false true goodProt goodEmi "1"

/-- The base document with the cargo info removed. -/
def exNoCarga : Element :=
  mkDoc (some exImp) [exInfDoc [exNFeRef exKey44], exInfModal] true true goodProt goodEmi "1"

/-- The base document with the complement removed. -/
def exNoCompl : Element := mkDoc (some exImp) baseNorm true false goodProt goodEmi "1"

/-- A production document whose infProt element exists but has no children. -/
def exChildlessProt : Element :=
  mkDoc (some exImp) baseNorm true true [nodeE "infProt" []] goodEmi "1"

/-- A document whose protocol receipt timestamp does not parse. -/
def exBadRecbto : Element :=
  mkDoc (some exImp) baseNorm true true [exInfProt "not-a-date"] goodEmi "1"

/-- A document with an unparseable emission timestamp and no infProt node. -/
def exBadEmi : Element :=
  mkDoc (some exImp) baseNorm true true [] "10/07/2023 garbage" "2"

/-- A non-production document with a protocol. -/
def exTpAmb2 : Element := mkDoc (some exImp) baseNorm true true goodProt goodEmi "2"

/-- A document whose infDoc subtree holds a transport-document reference
before an invoice reference. -/
def exCteFirst : Element :=
  mkDoc (some exImp)
    [exInfCarga, exInfDoc [exCTeRef exKeyOnes, exNFeRef exKeyTwos], exInfModal]
    true true goodProt goodEmi "1"

/-- A document whose only reference is a transport-document reference. -/
def exCteOnly : Element :=
  mkDoc (some exImp) [exInfCarga, exInfDoc [exCTeRef exKeyOnes], exInfModal]
    true true goodProt goodEmi "1"

/-- The base document with the childless-ICMS00 tax block. -/
def exChildless00Doc : Element :=
  mkDoc (some exImpChildless00) baseNorm true true goodProt goodEmi "1"

/-! Extraction lemmas: what a successful construction determines. -/

lemma getNodes1_ok_fields (root : Element) (nd : NodesA) (h : getNodes1 root = .ok nd) :
    nd.infProt = protNodeOf root ∧ nd.ide = ideNodeOf root := by
  unfold getNodes1 at h
  cases e1 : find1 root (nsURL ++ "CTeOS") with
  | none => rw [e1] at h; simp at h
  | some cteOs =>
    rw [e1] at h; dsimp only at h
    cases e2 : find1 cteOs (nsURL ++ "infCte") with
    | none => rw [e2] at h; simp at h
    | some infCte =>
      rw [e2] at h; dsimp only at h
      cases e3 : find1 infCte (nsURL ++ "infCTeNorm") with
      | none => rw [e3] at h; simp at h
      | some norm =>
        rw [e3] at h; dsimp only at h
        cases e4 : find1 root (nsURL ++ "protCTe") with
        | none => rw [e4] at h; simp at h
        | some protCte =>
          rw [e4] at h; dsimp only at h
          cases h
          refine ⟨?_, ?_⟩
          · simp [protNodeOf, e4]
          · simp [ideNodeOf, infCteNodeOf, e1, e2]

lemma construct_ok_elim (root : Element) (st : DState) (h : construct root = .ok st) :
    ∃ nd : NodesA, getNodes1 root = .ok nd ∧
      st.ide = nd.ide ∧
      st.infProt = nd.infProt ∧
      st.keyCte = pyReplace (attribGet nd.infCte "Id" "") "CTe" "" ∧
      getUsageProtocol nd.infProt = .ok st.protUso ∧
      st.dhEmi = dhEmiFormat nd.ide ∧
      (∃ imp, nd.imp = some imp ∧ st.icms = computeIcms imp 2) ∧
      st.infDocList = buildDocList nd.infDoc ∧
      st.formattedKey = formatKeyDisplay st.keyCte ∧
      renderRows st.infDocList = .ok st.docRows ∧
      st.watermark = !(find_text nd.ide "tpAmb" == "1" && pyBool nd.infProt) := by
  unfold construct at h
  cases e1 : getNodes1 root with
  | error e => rw [e1] at h; simp at h
  | ok nd =>
    rw [e1] at h; dsimp only at h
    cases e2 : getUsageProtocol nd.infProt with
    | error e => rw [e2] at h; simp at h
    | ok protUso =>
      rw [e2] at h; dsimp only at h
      cases e3 : nd.toma with
      | none => rw [e3] at h; simp at h
      | some toma =>
        rw [e3] at h; dsimp only at h
        cases e4 : nd.imp with
        | none => rw [e4] at h; simp at h
        | some imp =>
          rw [e4] at h; dsimp only at h
          cases e5 : buildObs nd.compl with
          | error e => rw [e5] at h; simp at h
          | ok obs =>
            rw [e5] at h; dsimp only at h
            cases e6 : nd.infModal with
            | none => rw [e6] at h; simp at h
            | some infModal =>
              rw [e6] at h; dsimp only at h
              cases e7 : nd.emit with
              | none => rw [e7] at h; simp at h
              | some emitEl =>
                rw [e7] at h; dsimp only at h
                split at h
                · simp at h
                · split at h
                  · simp at h
                  · cases e8 : renderRows (buildDocList nd.infDoc) with
                    | error e => rw [e8] at h; simp at h
                    | ok rows =>
                      rw [e8] at h; dsimp only at h
                      cases e9 : (rodoFields infModal).2.1 with
                      | none => rw [e9] at h; simp at h
                      | some placa =>
                        rw [e9] at h; dsimp only at h
                        cases h
                        exact ⟨nd, rfl, rfl, rfl, rfl, e2, rfl, ⟨imp, e4, rfl⟩, rfl, rfl, e8, rfl⟩

lemma find_text_nil (el : Element) (h : el.children = []) (xpath : String) :
    find_text (some el) xpath = "" := by
  simp [find_text, find1, fallbackText, get_tag_text, h]

lemma usageProtocol_ok_children (ip : Element) (s : String)
    (h : getUsageProtocol (some ip) = .ok s) : ip.children ≠ [] := by
  intro hnil
  unfold getUsageProtocol at h
  dsimp only at h
  rw [find_text_nil ip hnil] at h
  rw [show fromisoformat "" = none from rfl] at h
  simp at h

lemma pyBool_of_protocol_ok (p : Option Element) (s : String)
    (h : getUsageProtocol p = .ok s) : pyBool p = p.isSome := by
  cases p with
  | none => rfl
  | some ip =>
    have := usageProtocol_ok_children ip s h
    simp [pyBool, List.isEmpty_iff, this]

/-- C1: on every document whose construction succeeds (so a page is
rendered), the void watermark is drawn exactly when it is not the case that
the environment flag is the production value and the authorization-protocol
node is present; in particular a missing protocol node or a non-production
flag always forces the watermark. -/
theorem C1_watermark_rule (root : Element) (b : Bool) (hw : watermarkOf root = some b) :
    (b = true ↔ ¬(tpAmbOf root = "1" ∧ (protNodeOf root).isSome = true)) ∧
    ((protNodeOf root).isSome = false → b = true) ∧
    (tpAmbOf root ≠ "1" → b = true) := by
  unfold watermarkOf at hw
  cases hc : construct root with
  | error e => rw [hc] at hw; simp at hw
  | ok st =>
    rw [hc] at hw; dsimp only at hw
    injection hw with hb
    obtain ⟨nd, e1, hide, hprot, hkey, hup, hdh, himp, hdoc, hfk, hrows, hwm⟩ :=
      construct_ok_elim root st hc
    obtain ⟨hips, hiden⟩ := getNodes1_ok_fields root nd e1
    rw [hips] at hup
    have hpb : pyBool nd.infProt = (protNodeOf root).isSome := by
      rw [hips]; exact pyBool_of_protocol_ok _ _ hup
    have hb2 : b = !((tpAmbOf root == "1") && (protNodeOf root).isSome) := by
      rw [← hb, hwm, hpb, hiden]; rfl
    by_cases ht : tpAmbOf root = "1" <;>
      cases hp : (protNodeOf root).isSome <;>
        simp [hb2, ht, hp, beq_iff_eq]

/-- C1 witness: the rule instantiated on the complete production document. -/
theorem C1_watermark_rule_witness :
    watermarkOf exBase = some false ∧
    ((false = true) ↔ ¬(tpAmbOf exBase = "1" ∧ (protNodeOf exBase).isSome = true)) :=
  ⟨by decide, (C1_watermark_rule exBase false (by decide)).1⟩

/-- C9 (amended): the watermark decision does test the protocol element by
ElementTree truthiness, but a document whose infProt element exists with no
child elements never reaches that decision: composing the usage protocol
raises first, because the receipt timestamp lookup inside the childless node
yields the empty string, which datetime parsing rejects. -/
theorem C9_truthiness_unreachable (root : Element) :
    (∀ b, watermarkOf root = some b →
       b = !(find_text (ideNodeOf root) "tpAmb" == "1" && pyBool (protNodeOf root))) ∧
    (∀ ip, protNodeOf root = some ip → ip.children = [] → constructOk root = false) := by
  constructor
  · intro b hw
    unfold watermarkOf at hw
    cases hc : construct root with
    | error e => rw [hc] at hw; simp at hw
    | ok st =>
      rw [hc] at hw; dsimp only at hw
      injection hw with hb
      obtain ⟨nd, e1, hide, hprot, hkey, hup, hdh, himp, hdoc, hfk, hrows, hwm⟩ :=
        construct_ok_elim root st hc
      obtain ⟨hips, hiden⟩ := getNodes1_ok_fields root nd e1
      rw [← hb, hwm, hips, hiden]
  · intro ip hip hnil
    unfold constructOk
    cases hc : construct root with
    | error e => rfl
    | ok st =>
      exfalso
      obtain ⟨nd, e1, hide, hprot, hkey, hup, hdh, himp, hdoc, hfk, hrows, hwm⟩ :=
        construct_ok_elim root st hc
      obtain ⟨hips, hiden⟩ := getNodes1_ok_fields root nd e1
      rw [hips, hip] at hup
      exact usageProtocol_ok_children ip _ hup hnil

/-- C9 witness: both halves instantiated, on the base production document and
on the childless-infProt production document. -/
theorem C9_truthiness_unreachable_witness :
    (false = !(find_text (ideNodeOf exBase) "tpAmb" == "1" && pyBool (protNodeOf exBase))) ∧
    constructOk exChildlessProt = false ∧
    (protNodeOf exChildlessProt).isSome = true ∧
    tpAmbOf exChildlessProt = "1" :=
  ⟨(C9_truthiness_unreachable exBase).1 false (by decide),
   (C9_truthiness_unreachable exChildlessProt).2 (nodeE "infProt" []) rfl rfl,
   by decide, by decide⟩

/-- C4 (amended): the unparseable-timestamp fallback holds for the emission
timestamp, and an absent protocol subtree yields the literal N/A marker; but
for the protocol receipt timestamp there is no fallback: when infProt is
present and its receipt timestamp does not parse, construction raises. -/
theorem C4_timestamp_fallback (root : Element) :
    (∀ s, dhEmiOf root = some s →
       fromisoformat (rawDhEmiOf root) = none → s = rawDhEmiOf root) ∧
    (protNodeOf root = none → ∀ u, protUsoOf root = some u → u = "N/A") ∧
    (∀ ip, protNodeOf root = some ip →
       fromisoformat (find_text (some ip) "dhRecbto") = none → constructOk root = false) := by
  refine ⟨?_, ?_, ?_⟩
  · intro s hs hfail
    unfold dhEmiOf at hs
    cases hc : construct root with
    | error e => rw [hc] at hs; simp at hs
    | ok st =>
      rw [hc] at hs; dsimp only at hs
      injection hs with hs
      obtain ⟨nd, e1, hide, hprot, hkey, hup, hdh, himp, hdoc, hfk, hrows, hwm⟩ :=
        construct_ok_elim root st hc
      obtain ⟨hips, hiden⟩ := getNodes1_ok_fields root nd e1
      unfold rawDhEmiOf at hfail ⊢
      rw [← hiden] at hfail ⊢
      rw [← hs, hdh]
      simp [dhEmiFormat, hfail]
  · intro hnone u hu
    unfold protUsoOf at hu
    cases hc : construct root with
    | error e => rw [hc] at hu; simp at hu
    | ok st =>
      rw [hc] at hu; dsimp only at hu
      injection hu with hu
      obtain ⟨nd, e1, hide, hprot, hkey, hup, hdh, himp, hdoc, hfk, hrows, hwm⟩ :=
        construct_ok_elim root st hc
      obtain ⟨hips, hiden⟩ := getNodes1_ok_fields root nd e1
      rw [hips, hnone] at hup
      unfold getUsageProtocol at hup
      injection hup with hu2
      rw [← hu, ← hu2]
  · intro ip hip hbad
    unfold constructOk
    cases hc : construct root with
    | error e => rfl
    | ok st =>
      exfalso
      obtain ⟨nd, e1, hide, hprot, hkey, hup, hdh, himp, hdoc, hfk, hrows, hwm⟩ :=
        construct_ok_elim root st hc
      obtain ⟨hips, hiden⟩ := getNodes1_ok_fields root nd e1
      rw [hips, hip] at hup
      unfold getUsageProtocol at hup
      dsimp only at hup
      rw [hbad] at hup
      simp at hup

/-- C4 witness: the emission fallback on a document whose emission timestamp
does not parse, the N/A marker on the same document (its protocol node is
absent), and the fatal receipt-timestamp case on the bad-receipt document. -/
theorem C4_timestamp_fallback_witness :
    dhEmiOf exBadEmi = some "10/07/2023 garbage" ∧
    "10/07/2023 garbage" = rawDhEmiOf exBadEmi ∧
    "N/A" = "N/A" ∧
    constructOk exBadRecbto = false :=
  ⟨by decide,
   (C4_timestamp_fallback exBadEmi).1 "10/07/2023 garbage" (by decide) (by decide),
   (C4_timestamp_fallback exBadEmi).2.1 rfl "N/A" (by decide),
   (C4_timestamp_fallback exBadRecbto).2.2 (exInfProt "not-a-date") rfl (by decide)⟩

lemma chunkListAux_nil (k fuel : Nat) : chunkListAux k fuel ([] : List α) = [] := by
  cases fuel <;> rfl

lemma chunkListAux_spec (k : Nat) (hk : 0 < k) :
    ∀ (m fuel : Nat) (l : List α), l.length = k * m → m ≤ fuel →
      (chunkListAux k fuel l).length = m ∧
      (∀ c ∈ chunkListAux k fuel l, c.length = k) ∧
      (chunkListAux k fuel l).flatten = l := by
  intro m
  induction m with
  | zero =>
    intro fuel l hl _
    have hnil : l = [] := List.eq_nil_of_length_eq_zero (by omega)
    subst hnil
    simp [chunkListAux_nil]
  | succ m ih =>
    intro fuel l hl hf
    obtain ⟨f, rfl⟩ : ∃ f, fuel = f + 1 := ⟨fuel - 1, by omega⟩
    rw [Nat.mul_succ] at hl
    cases l with
    | nil => simp at hl; omega
    | cons a t =>
      have harm : chunkListAux k (f + 1) (a :: t) =
          (a :: t).take k :: chunkListAux k f ((a :: t).drop k) := rfl
      have hdrop : ((a :: t).drop k).length = k * m := by
        rw [List.length_drop, hl]; omega
      have htake : ((a :: t).take k).length = k := by
        rw [List.length_take, hl]
        omega
      obtain ⟨ih1, ih2, ih3⟩ := ih f ((a :: t).drop k) hdrop (by omega)
      refine ⟨?_, ?_, ?_⟩
      · rw [harm]; simp [ih1]
      · intro c hc
        rw [harm] at hc
        rcases List.mem_cons.mp hc with hc | hc
        · rw [hc]; exact htake
        · exact ih2 c hc
      · rw [harm, List.flatten_cons, ih3, List.take_append_drop]

lemma chunkList_spec (k m : Nat) (hk : 0 < k) (l : List α) (hl : l.length = k * m) :
    (chunkList k l).length = m ∧ (∀ c ∈ chunkList k l, c.length = k) ∧
      (chunkList k l).flatten = l := by
  have hm : m ≤ l.length := by
    rw [hl]
    calc m = 1 * m := (Nat.one_mul m).symm
    _ ≤ k * m := Nat.mul_le_mul_right m hk
  exact chunkListAux_spec k hk m l.length l hl hm

/-- C8: for every 44-character access key (the Id attribute value with the
CTe literal removed), the displayed key is the eleven four-character groups
of the key joined by single spaces, and the groups concatenate back to the
key. -/
theorem C8_key_chunking (root : Element) (k : String)
    (hk : keyCteOf root = some k) (hlen : k.length = 44) :
    formattedKeyOf root = some (formatKeyDisplay k) ∧
    formatKeyDisplay k = String.intercalate " " ((chunkList 4 k.data).map String.mk) ∧
    (chunkList 4 k.data).length = 11 ∧
    (∀ c ∈ chunkList 4 k.data, c.length = 4) ∧
    (chunkList 4 k.data).flatten = k.data := by
  have hdata : k.data.length = 4 * 11 := by
    have hsame : k.length = k.data.length := rfl
    omega
  obtain ⟨h1, h2, h3⟩ := chunkList_spec 4 11 (by norm_num) k.data hdata
  refine ⟨?_, rfl, h1, h2, h3⟩
  unfold keyCteOf at hk
  cases hc : construct root with
  | error e => rw [hc] at hk; simp at hk
  | ok st =>
    rw [hc] at hk; dsimp only at hk
    injection hk with hk
    obtain ⟨nd, e1, hide, hprot, hkey, hup, hdh, himp, hdoc, hfk, hrows, hwm⟩ :=
      construct_ok_elim root st hc
    unfold formattedKeyOf
    rw [hc]; dsimp only
    rw [hfk, hk]

lemma renderRows_mem (l : List String) (rows : List DocRow) (h : renderRows l = .ok rows) :
    ∀ r ∈ rows, ∃ c ∈ l, renderRow c = .ok r := by
  induction l generalizing rows with
  | nil =>
    unfold renderRows at h
    injection h with h
    subst h
    intro r hr
    simp at hr
  | cons c rest ih =>
    unfold renderRows at h
    cases h1 : renderRow c with
    | error e => rw [h1] at h; simp at h
    | ok r0 =>
      rw [h1] at h; dsimp only at h
      cases h2 : renderRows rest with
      | error e => rw [h2] at h; simp at h
      | ok rs =>
        rw [h2] at h; dsimp only at h
        injection h with h
        subst h
        intro r hr
        rcases List.mem_cons.mp hr with hr | hr
        · exact ⟨c, List.mem_cons_self c rest, hr ▸ h1⟩
        · obtain ⟨c2, hc2, hrr⟩ := ih rs h2 r hr
          exact ⟨c2, List.mem_cons_of_mem c hc2, hrr⟩

lemma renderRow_ok (c : String) (r : DocRow) (h : renderRow c = .ok r) :
    ∃ n, pyIntDigits? (pySlice c 25 34) = some n ∧
      r = { tipo := "NFE", chave := c, serie := pySlice c 22 25,
            nroFmt := formattedNroDoc n } := by
  unfold renderRow at h
  cases hn : pyIntDigits? (pySlice c 25 34) with
  | none => rw [hn] at h; simp at h
  | some n =>
    rw [hn] at h; dsimp only at h
    injection h with h
    exact ⟨n, rfl, h.symm⟩

/-- C10: every rendered row of the originating-documents table carries the
literal document-type label NFE, regardless of which reference kind the key
was collected from. -/
theorem C10_row_label (root : Element) (rows : List DocRow)
    (h : docRowsOf root = some rows) : ∀ r ∈ rows, r.tipo = "NFE" := by
  unfold docRowsOf at h
  cases hc : construct root with
  | error e => rw [hc] at h; simp at h
  | ok st =>
    rw [hc] at h; dsimp only at h
    injection h with h
    subst h
    obtain ⟨nd, e1, hide, hprot, hkey, hup, hdh, himp, hdoc, hfk, hrows, hwm⟩ :=
      construct_ok_elim root st hc
    intro r hr
    obtain ⟨c, hcmem, hcr⟩ := renderRows_mem _ _ hrows r hr
    obtain ⟨n, hn, hreq⟩ := renderRow_ok c r hcr
    rw [hreq]

lemma decimalDigitsLE_eq_digits : ∀ (fuel n : Nat), n ≤ fuel →
    decimalDigitsLE fuel n = Nat.digits 10 n := by
  intro fuel
  induction fuel with
  | zero =>
    intro n hn
    have h0 : n = 0 := by omega
    subst h0
    simp [decimalDigitsLE]
  | succ f ih =>
    intro n hn
    by_cases h0 : n = 0
    · subst h0; simp [decimalDigitsLE]
    · rw [show decimalDigitsLE (f + 1) n =
          (if n = 0 then [] else n % 10 :: decimalDigitsLE f (n / 10)) from rfl]
      rw [if_neg h0]
      rw [Nat.digits_def' (by norm_num : (1:ℕ) < 10) (Nat.pos_of_ne_zero h0)]
      have hlt : n / 10 < n := Nat.div_lt_self (Nat.pos_of_ne_zero h0) (by norm_num)
      have := ih (n / 10) (by omega)
      rw [this]

lemma ofDigits_replicate_zero (k : Nat) : Nat.ofDigits 10 (List.replicate k 0) = 0 := by
  induction k with
  | zero => rfl
  | succ k ih => rw [List.replicate_succ, Nat.ofDigits_cons, ih]

lemma dropWhile_head_false {α : Type} (p : α → Bool) :
    ∀ (l : List α) (d : α) (t2 : List α), l.dropWhile p = d :: t2 → p d = false := by
  intro l
  induction l with
  | nil => intro d t2 h; simp [List.dropWhile] at h
  | cons a l ih =>
    intro d t2 h
    rw [List.dropWhile_cons] at h
    by_cases ha : p a = true
    · rw [if_pos ha] at h; exact ih d t2 h
    · rw [if_neg ha] at h
      injection h with h1 _
      subst h1
      exact Bool.eq_false_iff.mpr ha

lemma decimal_roundtrip (ds : List Nat) (hlt : ∀ d ∈ ds, d < 10) (hne : ds ≠ []) :
    (decimalDigitsBE (Nat.ofDigits 10 ds.reverse)).length ≤ ds.length ∧
    List.replicate (ds.length - (decimalDigitsBE (Nat.ofDigits 10 ds.reverse)).length) 0 ++
      decimalDigitsBE (Nat.ofDigits 10 ds.reverse) = ds := by
  have hsplit : ds.takeWhile (fun d => d == 0) ++ ds.dropWhile (fun d => d == 0) = ds :=
    List.takeWhile_append_dropWhile ..
  set z := ds.takeWhile (fun d => d == 0) with hz
  set t := ds.dropWhile (fun d => d == 0) with ht
  have hzrep : z = List.replicate z.length 0 := by
    apply List.eq_replicate_of_mem
    intro b hb
    have hb2 := List.mem_takeWhile_imp hb
    simpa using hb2
  have hofz : Nat.ofDigits 10 z.reverse = 0 := by
    rw [hzrep, List.reverse_replicate]
    exact ofDigits_replicate_zero _
  have hval : Nat.ofDigits 10 ds.reverse = Nat.ofDigits 10 t.reverse := by
    conv_lhs => rw [← hsplit]
    rw [List.reverse_append, Nat.ofDigits_append, hofz]
    simp
  cases htt : t with
  | nil =>
    have hzlen : z.length = ds.length := by
      conv_rhs => rw [← hsplit]
      rw [htt]
      simp
    have hn0 : Nat.ofDigits 10 ds.reverse = 0 := by rw [hval, htt]; rfl
    rw [hn0]
    have hbe : decimalDigitsBE 0 = [0] := rfl
    rw [hbe]
    have hpos : 1 ≤ ds.length := List.length_pos.mpr hne
    constructor
    · simpa using hpos
    · have hds : ds = List.replicate ds.length 0 := by
        conv_lhs => rw [← hsplit, htt]
        rw [List.append_nil, hzrep, hzlen]
      conv_rhs => rw [hds]
      rw [show ([0] : List Nat) = List.replicate 1 0 from rfl, ← List.replicate_add]
      congr 1
      simp
      omega
  | cons d t2 =>
    have hd0 : d ≠ 0 := by
      have hh := dropWhile_head_false (fun x => x == 0) ds d t2 (ht.symm.trans htt)
      simpa using hh
    have htlt : ∀ x ∈ t, x < 10 := by
      intro x hx
      apply hlt
      rw [← hsplit]
      exact List.mem_append_right _ hx
    have hdig : Nat.digits 10 (Nat.ofDigits 10 t.reverse) = t.reverse := by
      apply Nat.digits_ofDigits 10 (by norm_num)
      · intro x hx
        exact htlt x (by simpa using hx)
      · intro hne2
        have hgoal : t.reverse.getLast hne2 = d := by
          have hrev : t.reverse = t2.reverse ++ [d] := by rw [htt, List.reverse_cons]
          rw [List.getLast_congr _ _ hrev]
          · simp [List.getLast_append]
          · simp
        rw [hgoal]
        exact hd0
    have hnne : Nat.ofDigits 10 t.reverse ≠ 0 := by
      intro h0
      rw [h0, Nat.digits_zero] at hdig
      rw [htt] at hdig
      simp at hdig
    have hbe : decimalDigitsBE (Nat.ofDigits 10 ds.reverse) = t := by
      unfold decimalDigitsBE
      rw [hval, if_neg hnne, decimalDigitsLE_eq_digits _ _ (le_refl _), hdig,
        List.reverse_reverse]
    rw [hbe]
    have hlen2 : z.length + t.length = ds.length := by
      rw [← hsplit, List.length_append]
    constructor
    · omega
    · have hz2 : ds.length - t.length = z.length := by omega
      rw [hz2, ← hzrep]
      exact hsplit

lemma uint32_le_toNat (a b : UInt32) (h : a ≤ b) : a.toNat ≤ b.toNat := by
  rw [UInt32.le_def, BitVec.le_def] at h
  exact h

lemma digit_bounds (c : Char) (h : isDigitChar c = true) :
    48 ≤ c.toNat ∧ c.toNat ≤ 57 := by
  unfold isDigitChar Char.isDigit at h
  rw [Bool.and_eq_true] at h
  obtain ⟨h1, h2⟩ := h
  constructor
  · exact uint32_le_toNat 48 c.val (of_decide_eq_true h1)
  · exact uint32_le_toNat c.val 57 (of_decide_eq_true h2)

lemma charVal_lt (c : Char) (h : isDigitChar c = true) : charVal c < 10 := by
  obtain ⟨h1, h2⟩ := digit_bounds c h
  unfold charVal
  omega

lemma toDigitChar_charVal (c : Char) (h : isDigitChar c = true) :
    toDigitChar (charVal c) = c := by
  obtain ⟨h1, h2⟩ := digit_bounds c h
  unfold toDigitChar charVal
  rw [Nat.add_sub_cancel' h1]
  exact Char.ofNat_toNat c

lemma intercalate_cons₂ {α : Type} (sep : List α) (a b : List α) (L : List (List α)) :
    List.intercalate sep (a :: b :: L) = a ++ sep ++ List.intercalate sep (b :: L) := by
  unfold List.intercalate
  rw [List.intersperse_cons₂, List.flatten_cons, List.flatten_cons, List.append_assoc]

lemma map_intercalate {α β : Type} (g : α → β) (sep : List α) :
    ∀ L : List (List α),
      (List.intercalate sep L).map g =
        List.intercalate (sep.map g) (L.map (List.map g)) := by
  intro L
  induction L with
  | nil => rfl
  | cons a L ih =>
    cases L with
    | nil => simp [List.intercalate]
    | cons b L2 =>
      rw [intercalate_cons₂, List.map_append, List.map_append, ih]
      simp only [List.map_cons]
      rw [intercalate_cons₂]

lemma rchunks3_mem {α : Type} (l : List α) (m : Nat) (hl : l.length = 3 * m) :
    ∀ g ∈ rchunks3 l, ∀ x ∈ g, x ∈ l := by
  intro g hg x hx
  unfold rchunks3 at hg
  rw [List.mem_reverse] at hg
  obtain ⟨g2, hg2, rfl⟩ := List.mem_map.mp hg
  have hx2 : x ∈ g2 := by simpa using hx
  obtain ⟨hc1, hc2, hflat⟩ := chunkList_spec 3 m (by norm_num) l.reverse (by simpa using hl)
  have hxl : x ∈ (chunkList 3 l.reverse).flatten := List.mem_flatten.mpr ⟨g2, hg2, hx2⟩
  rw [hflat] at hxl
  simpa using hxl

lemma rchunks3_shape {α : Type} (l : List α) (h9 : l.length = 9) :
    (rchunks3 l).length = 3 ∧ ∀ g ∈ rchunks3 l, g.length = 3 := by
  obtain ⟨hc1, hc2, hflat⟩ :=
    chunkList_spec 3 3 (by norm_num) l.reverse (by simpa using h9)
  constructor
  · unfold rchunks3
    simp [hc1]
  · intro g hg
    unfold rchunks3 at hg
    rw [List.mem_reverse] at hg
    obtain ⟨g2, hg2, rfl⟩ := List.mem_map.mp hg
    simpa using hc2 g2 hg2

lemma comma_free_fix (s : List Char) (hdm : ∀ c ∈ s, isDigitChar c = true)
    (h9 : s.length = 9) :
    (rchunks3 s).map (List.map (fun c => if c = ',' then '.' else c)) = rchunks3 s := by
  conv_rhs => rw [← List.map_id (rchunks3 s)]
  apply List.map_congr_left
  intro g hg
  have hmem := rchunks3_mem s 3 (by omega) g hg
  simp only [id]
  conv_rhs => rw [← List.map_id g]
  apply List.map_congr_left
  intro c hc
  have hdig := hdm c (hmem c hc)
  have hb := digit_bounds c hdig
  have hcne : c ≠ ',' := by
    intro hcc
    subst hcc
    revert hb
    decide
  simp [hcne, id]

lemma formattedNro_spec (s : List Char) (h9 : s.length = 9)
    (hd : s.all isDigitChar = true) :
    formattedNroDoc (Nat.ofDigits 10 ((s.map charVal).reverse)) =
      String.mk (List.intercalate ['.'] (rchunks3 s)) := by
  have hdm : ∀ c ∈ s, isDigitChar c = true := by
    intro c hc
    have := List.all_eq_true.mp hd c hc
    simpa using this
  have hvl : (s.map charVal).length = 9 := by simp [h9]
  have hvlt : ∀ d ∈ s.map charVal, d < 10 := by
    intro d hdv
    obtain ⟨c, hc, rfl⟩ := List.mem_map.mp hdv
    exact charVal_lt c (hdm c hc)
  have hvne : (s.map charVal) ≠ [] := by
    intro h0
    rw [h0] at hvl
    simp at hvl
  obtain ⟨hble, hpad⟩ := decimal_roundtrip (s.map charVal) hvlt hvne
  rw [hvl] at hble
  rw [hvl] at hpad
  have hmap :
      (List.replicate
          (9 - (decimalDigitsBE (Nat.ofDigits 10 ((s.map charVal)).reverse)).length) 0 ++
        decimalDigitsBE (Nat.ofDigits 10 ((s.map charVal)).reverse)).map toDigitChar = s := by
    rw [hpad, List.map_map]
    have hcong : s.map (toDigitChar ∘ charVal) = s.map id := by
      apply List.map_congr_left
      intro c hc
      simp only [Function.comp, id]
      exact toDigitChar_charVal c (hdm c hc)
    rw [hcong, List.map_id]
  have hform : pyFormatComma011 (Nat.ofDigits 10 ((s.map charVal)).reverse) =
      List.intercalate [','] (rchunks3 s) := by
    simp only [pyFormatComma011]
    rw [List.length_map, if_pos hble]
    rw [show ('0' : Char) = toDigitChar 0 from rfl, ← List.map_replicate, ← List.map_append,
      hmap]
  unfold formattedNroDoc
  rw [hform]
  apply congrArg
  rw [map_intercalate]
  rw [comma_free_fix s hdm h9]
  rfl

lemma intercalate_len_11 (gs : List (List Char)) (h3 : gs.length = 3)
    (hg : ∀ g ∈ gs, g.length = 3) : (List.intercalate ['.'] gs).length = 11 := by
  obtain ⟨a, b, c, rfl⟩ := List.length_eq_three.mp h3
  rw [intercalate_cons₂, intercalate_cons₂]
  have ha := hg a (by simp)
  have hb := hg b (by simp)
  have hc := hg c (by simp)
  rw [show List.intercalate ['.'] [c] = c from by simp [List.intercalate]]
  simp [List.length_append, ha, hb, hc]

/-- C5: for every referenced-document key rendered in the documents section
that is a 44-character digit string, the displayed series is the
three-character substring at position 22 and the displayed sequence number is
the nine-character substring at position 25 padded with its leading zeros to
the eleven display characters by dot thousands grouping. -/
theorem C5_serie_nro (root : Element) (rows : List DocRow) (r : DocRow)
    (h : docRowsOf root = some rows) (hr : r ∈ rows)
    (hlen : r.chave.length = 44) (hdig : r.chave.data.all isDigitChar = true) :
    r.serie = pySlice r.chave 22 25 ∧
    r.nroFmt = specNroFmt (pySlice r.chave 25 34) ∧
    (specNroFmt (pySlice r.chave 25 34)).length = 11 := by
  unfold docRowsOf at h
  cases hc : construct root with
  | error e => rw [hc] at h; simp at h
  | ok st =>
    rw [hc] at h
    dsimp only at h
    injection h with h
    subst h
    obtain ⟨nd, e1, hide, hprot, hkey, hup, hdh, himp, hdoc, hfk, hrows, hwm⟩ :=
      construct_ok_elim root st hc
    obtain ⟨c, hcmem, hcr⟩ := renderRows_mem _ _ hrows r hr
    obtain ⟨n, hn, hreq⟩ := renderRow_ok c r hcr
    subst hreq
    simp only at hlen hdig
    have hdata44 : c.data.length = 44 := hlen
    have hslice9 : (pySlice c 25 34).data.length = 9 := by
      unfold pySlice
      simp [List.length_take, List.length_drop]
      omega
    have hsliced : (pySlice c 25 34).data.all isDigitChar = true := by
      unfold pySlice
      rw [List.all_eq_true]
      intro x hx
      have hx2 : x ∈ c.data.drop 25 := List.mem_of_mem_take hx
      have hx3 : x ∈ c.data := List.mem_of_mem_drop hx2
      exact List.all_eq_true.mp hdig x hx3
    unfold pyIntDigits? at hn
    rw [if_pos ⟨by intro h0; rw [h0] at hslice9; simp at hslice9,
      by rw [List.all_eq_true] at hsliced ⊢; exact hsliced⟩] at hn
    injection hn with hn
    refine ⟨rfl, ?_, ?_⟩
    · show formattedNroDoc n = specNroFmt (pySlice c 25 34)
      rw [← hn]
      exact formattedNro_spec (pySlice c 25 34).data hslice9 hsliced
    · show (specNroFmt (pySlice c 25 34)).length = 11
      unfold specNroFmt
      obtain ⟨hs1, hs2⟩ := rchunks3_shape (pySlice c 25 34).data hslice9
      exact intercalate_len_11 _ hs1 hs2

/-- C6 (amended): the interstate ICMSOutraUF variant is selected by node
presence; the standard ICMS00 variant is selected by ElementTree truthiness,
so a present ICMS00 node with at least one child selects its field set while
a present but childless ICMS00 node falls back to the same defaults as an
absent one; with neither variant selected every numeric field is the
formatted zero. -/
theorem C6_icms_selection (imp : Element) (prec : Nat) :
    (∀ n, find2 imp (nsURL ++ "ICMS") (nsURL ++ "ICMSOutraUF") = some n →
       computeIcms imp prec = icmsOutraUFFields n prec) ∧
    (find2 imp (nsURL ++ "ICMS") (nsURL ++ "ICMSOutraUF") = none →
       ∀ n, find2 imp (nsURL ++ "ICMS") (nsURL ++ "ICMS00") = some n →
         (n.children ≠ [] → computeIcms imp prec = icms00Fields n prec) ∧
         (n.children = [] → computeIcms imp prec = icmsDefaults)) ∧
    (find2 imp (nsURL ++ "ICMS") (nsURL ++ "ICMSOutraUF") = none →
       find2 imp (nsURL ++ "ICMS") (nsURL ++ "ICMS00") = none →
       computeIcms imp prec = icmsDefaults) := by
  refine ⟨?_, ?_, ?_⟩
  · intro n hn
    unfold computeIcms
    rw [hn]
  · intro h0 n hn
    constructor
    · intro hne
      unfold computeIcms
      rw [h0, hn]
      dsimp only
      rw [if_neg (by simpa [List.isEmpty_iff] using hne)]
    · intro hnil
      unfold computeIcms
      rw [h0, hn]
      dsimp only
      rw [if_pos (by simpa [List.isEmpty_iff] using hnil)]
  · intro h0 h1
    unfold computeIcms
    rw [h0, h1]

lemma foldl_appendChave (ns : List Element) :
    ∀ init, ns.foldl appendChave init =
      init ++ (ns.map (fun n => find_text (some n) "chave")).filter
        (fun c => c ≠ "") := by
  induction ns with
  | nil => intro init; simp
  | cons n ns ih =>
    intro init
    rw [List.foldl_cons, ih]
    unfold appendChave
    by_cases hc : find_text (some n) "chave" ≠ ""
    · rw [if_pos hc]
      simp [List.filter_cons, hc, List.append_assoc]
    · rw [if_neg hc]
      simp [List.filter_cons, hc]

/-- C3 (amended): the referenced-documents list is not in global document
order; it is all invoice-reference (infNFe) chaves in document order followed
by all transport-document-reference (infCTe) chaves in document order,
entries with an empty chave skipped. -/
theorem C3_doc_list_shape :
    buildDocList none = [] ∧
    ∀ d : Element, buildDocList (some d) =
      ((findall1 d (nsURL ++ "infNFe")).map (fun n => find_text (some n) "chave")).filter
          (fun c => c ≠ "") ++
        ((findall1 d (nsURL ++ "infCTe")).map (fun n => find_text (some n) "chave")).filter
          (fun c => c ≠ "") := by
  constructor
  · rfl
  · intro d
    unfold buildDocList
    dsimp only
    rw [foldl_appendChave, foldl_appendChave]
    simp

/-- The primary lookup of find_text: the matched node with non-absent text. -/
def primaryText (el : Element) (xpath : String) : Option String :=
  (find1 el (resolveXPath xpath)).bind Element.text

/-- C7: find_text returns the empty string for a missing element and never
raises; when the lookup of the tag name as written (resolving the namespace
prefix when one is present) finds a node with text, it returns that text
trimmed; when that primary lookup fails, it falls back to the
stripped-prefix helper lookup against the namespace URL and returns its text
trimmed when non-empty; when both fail or yield no text, it returns the
empty string. -/
theorem C7_find_text_contract (el : Element) (xpath : String) :
    (find_text none xpath = "") ∧
    (∀ t, primaryText el xpath = some t → find_text (some el) xpath = pyStrip t) ∧
    (primaryText el xpath = none →
       ∀ t, get_tag_text el nsURL (tagAfterColon xpath) = some t → t ≠ "" →
         find_text (some el) xpath = pyStrip t) ∧
    (primaryText el xpath = none →
       (get_tag_text el nsURL (tagAfterColon xpath) = none ∨
        get_tag_text el nsURL (tagAfterColon xpath) = some "") →
       find_text (some el) xpath = "") := by
  refine ⟨rfl, ?_, ?_, ?_⟩
  · intro t ht
    unfold primaryText at ht
    unfold find_text
    dsimp only
    cases hf : find1 el (resolveXPath xpath) with
    | none =>
      exfalso
      rw [hf] at ht
      simp at ht
    | some f =>
      rw [hf] at ht
      have ht2 : f.text = some t := ht
      dsimp only
      rw [ht2]
  · intro hp t hg hne
    unfold primaryText at hp
    have hfb : fallbackText el xpath = pyStrip t := by
      unfold fallbackText
      rw [hg]
      dsimp only
      rw [if_pos hne]
    unfold find_text
    dsimp only
    cases hf : find1 el (resolveXPath xpath) with
    | none => exact hfb
    | some f =>
      rw [hf] at hp
      have hp2 : f.text = none := hp
      dsimp only
      rw [hp2]
      exact hfb
  · intro hp hg
    unfold primaryText at hp
    have hfb : fallbackText el xpath = "" := by
      unfold fallbackText
      rcases hg with hg | hg
      · rw [hg]
      · rw [hg]
        dsimp only
        simp
    unfold find_text
    dsimp only
    cases hf : find1 el (resolveXPath xpath) with
    | none => exact hfb
    | some f =>
      rw [hf] at hp
      have hp2 : f.text = none := hp
      dsimp only
      rw [hp2]
      exact hfb

/-- C2 counterexample: the claim says construction completes when the tax
block is absent; on the base document with only the imp subtree removed,
construction raises instead (the attribute access on line 164), while the
full base document constructs fine. -/
theorem C2_counterexample :
    constructOk exBase = true ∧ constructOk exNoImp = false := by
  refine ⟨by decide, by decide⟩

/-- C2 (amended): construction tolerates an absent supplementary-info,
cargo-info or complement subtree, degrading the affected fields (the QR
payload becomes the empty string), but an absent tax block (imp) or modal
block (infModal) raises an attribute error, in addition to the structurally
required nodes. -/
theorem C2_optional_subtrees :
    constructOk exBase = true ∧
    constructOk exNoSupl = true ∧
    qrCodeDataOf exNoSupl = some "" ∧
    constructOk exNoCarga = true ∧
    constructOk exNoCompl = true ∧
    constructOk exNoImp = false ∧
    constructOk exNoModal = false := by
  refine ⟨by decide, by decide, by decide, by decide, by decide, by decide, by decide⟩

/-- C3 counterexample: with a transport-document reference before an invoice
reference in the infDoc subtree, the extracted list is not in document
order: the invoice chave comes out first. -/
theorem C3_counterexample :
    infDocListOf exCteFirst = some [exKeyTwos, exKeyOnes] ∧
    claimDocList (infDocNodeOf exCteFirst) = [exKeyOnes, exKeyTwos] ∧
    exKeyOnes ≠ exKeyTwos := by
  refine ⟨by decide, by decide, by decide⟩

/-- C4 counterexample: the claim says an unparseable timestamp is never
fatal; on a document whose protocol receipt timestamp is the unparseable
literal, construction fails, while the same document with a valid receipt
timestamp constructs fine. -/
theorem C4_counterexample :
    fromisoformat "not-a-date" = none ∧
    find_text (protNodeOf exBadRecbto) "dhRecbto" = "not-a-date" ∧
    constructOk exBadRecbto = false ∧
    constructOk exBase = true := by
  refine ⟨by decide, by decide, by decide, by decide⟩

/-- C6 counterexample: with a present but childless ICMS00 node, the claim
selection (presence alone) yields that node field set, whose numeric fields
are the raw empty lookups, while the code falls to the all-zero default
branch because the bare if on line 178 tests truthiness. -/
theorem C6_counterexample :
    (find2 exImpChildless00 (nsURL ++ "ICMS") (nsURL ++ "ICMSOutraUF")).isSome = false ∧
    (find2 exImpChildless00 (nsURL ++ "ICMS") (nsURL ++ "ICMS00")).isSome = true ∧
    computeIcms exImpChildless00 2 = icmsDefaults ∧
    claimIcmsSelect exImpChildless00 2 ≠ computeIcms exImpChildless00 2 ∧
    icmsOf exChildless00Doc = some icmsDefaults := by
  refine ⟨by decide, by decide, by decide, by decide, by decide⟩

/-- C9 counterexample: the claim says the watermark is drawn on a production
document whose infProt exists with no children; in fact construction fails
on such a document before any drawing (the usage protocol composition
raises), so no page and no watermark are produced. -/
theorem C9_counterexample :
    (protNodeOf exChildlessProt).isSome = true ∧
    pyBool (protNodeOf exChildlessProt) = false ∧
    tpAmbOf exChildlessProt = "1" ∧
    watermarkOf exChildlessProt = none ∧
    constructOk exChildlessProt = false := by
  refine ⟨by decide, by decide, by decide, by decide, by decide⟩

/-- C5 witness: the rule instantiated on the base document row. -/
theorem C5_serie_nro_witness :
    docRowsOf exBase =
      some [{ tipo := "NFE", chave := exKey44, serie := "001", nroFmt := "000.000.123" }] ∧
    "001" = pySlice exKey44 22 25 ∧
    "000.000.123" = specNroFmt (pySlice exKey44 25 34) :=
  ⟨by decide,
   (C5_serie_nro exBase
     [{ tipo := "NFE", chave := exKey44, serie := "001", nroFmt := "000.000.123" }]
     { tipo := "NFE", chave := exKey44, serie := "001", nroFmt := "000.000.123" }
     (by decide) (by decide) (by decide) (by decide)).1,
   (C5_serie_nro exBase
     [{ tipo := "NFE", chave := exKey44, serie := "001", nroFmt := "000.000.123" }]
     { tipo := "NFE", chave := exKey44, serie := "001", nroFmt := "000.000.123" }
     (by decide) (by decide) (by decide) (by decide)).2.1⟩

/-- C6 witness: selection instantiated on a populated ICMS00 tax block and on
the childless one. -/
theorem C6_icms_selection_witness :
    computeIcms exImp 2 = icms00Fields exIcms00Node 2 ∧
    computeIcms exImpChildless00 2 = icmsDefaults :=
  ⟨((C6_icms_selection exImp 2).2.1 rfl exIcms00Node rfl).1 (List.cons_ne_nil _ _),
   ((C6_icms_selection exImpChildless00 2).2.1 rfl (nodeE "ICMS00" []) rfl).2 rfl⟩

/-- An element whose child carries the literal un-namespaced tag, for the
find_text witness. -/
def exC7Primary : Element :=
  Element.mk "root" [] none [Element.mk "tpAmb" [] (some " 2 ") []]

/-- C7 witness: the contract instantiated on a missing element, a primary
match and a fallback match. -/
theorem C7_find_text_contract_witness :
    find_text none "tpAmb" = "" ∧
    find_text (some exC7Primary) "tpAmb" = pyStrip " 2 " ∧
    find_text (some (exIde "1" "x")) "tpAmb" = pyStrip "1" :=
  ⟨(C7_find_text_contract (exIde "1" "x") "tpAmb").1,
   (C7_find_text_contract exC7Primary "tpAmb").2.1 " 2 " rfl,
   (C7_find_text_contract (exIde "1" "x") "tpAmb").2.2.1 rfl "1" rfl (by decide)⟩

/-- C8 witness: the chunking instantiated on the base document key. -/
theorem C8_key_chunking_witness :
    keyCteOf exBase = some exKey44 ∧
    formattedKeyOf exBase = some (formatKeyDisplay exKey44) ∧
    (chunkList 4 exKey44.data).length = 11 :=
  ⟨by decide,
   (C8_key_chunking exBase exKey44 (by decide) (by decide)).1,
   (C8_key_chunking exBase exKey44 (by decide) (by decide)).2.2.1⟩

/-- C10 witness: the label rule instantiated on the row collected from a
transport-document (infCTe) reference. -/
theorem C10_row_label_witness :
    docRowsOf exCteOnly =
      some [{ tipo := "NFE", chave := exKeyOnes, serie := "111", nroFmt := "111.111.111" }] ∧
    ({ tipo := "NFE", chave := exKeyOnes, serie := "111",
       nroFmt := "111.111.111" } : DocRow).tipo = "NFE" :=
  ⟨by decide,
   C10_row_label exCteOnly
     [{ tipo := "NFE", chave := exKeyOnes, serie := "111", nroFmt := "111.111.111" }]
     (by decide)
     { tipo := "NFE", chave := exKeyOnes, serie := "111", nroFmt := "111.111.111" }
     (by decide)⟩
